import Mathlib

/-!
Shallow embedding of the `aptos` CLI slice:
`crates/aptos/src/account/fund.rs` (`FundAccount::execute`) and
`crates/aptos/src/lib.rs` (`Tool::execute`, `InfoTool::execute`).

External collaborators (faucet client, REST client, wall clock, build-info
collector) are modelled as an environment record of functions; the
embedding of `FundAccount::execute` additionally records an event trace
(faucet requests and confirmation polls, in issue order) so that ordering
and call-count properties are statable.
-/

namespace AptosCli

/-- Network profile name (`ProfileOptions.profile`). -/
abbrev Profile := String

/-- Account address, in its display rendering (`AccountAddress`). -/
abbrev Addr := String

/-- Resolved faucet / REST endpoint URL. -/
abbrev Url := String

/-- A pending-transaction hash returned by the faucet (`HashValue`). -/
abbrev Hash := Nat

/-- A resolved REST client handle (`rest_options.client(...)` result). -/
abbrev Client := Nat

/-- Modelled from the spec: the error taxonomy of `CliError`
(`crates/aptos/src/common/types.rs` is not in the sources; section 7 of the
spec lists transport, timeout and unexpected kinds).  `fund.rs` itself only
constructs `UnexpectedError`; the other kinds are propagated with `?`. -/
inductive CliError where
  | UnexpectedError (msg : String) : CliError
  | TimeoutError : CliError
  | TransportError (msg : String) : CliError
deriving DecidableEq, Repr

/-- Configuration record resolved before command construction.  Its
internals are irrelevant to this slice; it is carried to the environment
function that consumes it (`faucet_url`). -/
structure FaucetOptions where
  raw : Nat
deriving DecidableEq, Repr

/-- Configuration record resolved before command construction, consumed by
the environment's `client` function. -/
structure RestOptions where
  raw : Nat
deriving DecidableEq, Repr

/-- The `FundAccount` command struct from `fund.rs` (clap attributes
dropped; the fields are exactly the struct's fields, with
`profile_options` reduced to the profile name it contributes). -/
structure FundAccount where
  profile_options : Profile
  account : Addr
  faucet_options : FaucetOptions
  num_coins : Nat
  rest_options : RestOptions
deriving DecidableEq, Repr

/-- One observable external call made by `FundAccount::execute`, in issue
order. -/
inductive Event where
  | fundRequest (url : Url) (coins : Nat) (addr : Addr) : Event
  | poll (h : Hash) (deadline : Nat) : Event
deriving DecidableEq, Repr

/-- Environment of external collaborators consumed by
`FundAccount::execute`:
`faucet_options.faucet_url(&profile)`, `common::utils::fund_account`,
`SystemTime::now().duration_since(UNIX_EPOCH)` (seconds, or the clock
error's description), `rest_options.client(&profile)` and
`Client::wait_for_transaction_by_hash`. -/
structure FundEnv where
  faucet_url : FaucetOptions → Profile → Except CliError Url
  fund_account : Url → Nat → Addr → Except CliError (List Hash)
  now_secs : Except String Nat
  client : RestOptions → Profile → Except CliError Client
  wait_for_transaction_by_hash : Client → Hash → Nat → Except CliError Unit

/-- The `for hash in hashes { client.wait_for_transaction_by_hash(hash, sys_time).await? }`
loop: polls each hash in order with the shared deadline, stopping at the
first error; also returns the trace of polls actually issued. -/
def pollLoop (env : FundEnv) (c : Client) (deadline : Nat) :
    List Hash → Except CliError Unit × List Event
  | [] => (Except.ok (), [])
  | h :: hs =>
    match env.wait_for_transaction_by_hash c h deadline with
    | Except.error e => (Except.error e, [Event.poll h deadline])
    | Except.ok _ =>
      let rest := pollLoop env c deadline hs
      (rest.1, Event.poll h deadline :: rest.2)

/-- The success message `format!("Added {} coins to account {}", num_coins, account)`. -/
def fundMessage (num_coins : Nat) (account : Addr) : String :=
  "Added " ++ toString num_coins ++ " coins to account " ++ account

/-- The body of `FundAccount::execute` from `fund.rs`, instrumented with
the trace of external calls.  Step order follows the source: resolve the
faucet URL, call `fund_account` (`?`), read the clock and add 10
(`map_err` to `UnexpectedError`), resolve the REST client (`?`), then poll
every hash with the shared `sys_time` deadline, and finally format the
success message. -/
def FundAccount.executeT (env : FundEnv) (cmd : FundAccount) :
    Except CliError String × List Event :=
  match env.faucet_url cmd.faucet_options cmd.profile_options with
  | Except.error e => (Except.error e, [])
  | Except.ok url =>
    match env.fund_account url cmd.num_coins cmd.account with
    | Except.error e => (Except.error e, [Event.fundRequest url cmd.num_coins cmd.account])
    | Except.ok hashes =>
      let requested := [Event.fundRequest url cmd.num_coins cmd.account]
      match env.now_secs with
      | Except.error e => (Except.error (CliError.UnexpectedError e), requested)
      | Except.ok now =>
        let sys_time := now + 10
        match env.client cmd.rest_options cmd.profile_options with
        | Except.error e => (Except.error e, requested)
        | Except.ok c =>
          let polled := pollLoop env c sys_time hashes
          match polled.1 with
          | Except.error e => (Except.error e, requested ++ polled.2)
          | Except.ok _ =>
            (Except.ok (fundMessage cmd.num_coins cmd.account), requested ++ polled.2)

/-- The result component of `FundAccount::execute`. -/
def FundAccount.execute (env : FundEnv) (cmd : FundAccount) : Except CliError String :=
  (FundAccount.executeT env cmd).1

/-- The poll events of a trace, keeping issue order. -/
def pollsOf : List Event → List (Hash × Nat)
  | [] => []
  | Event.poll h d :: tr => (h, d) :: pollsOf tr
  | Event.fundRequest _ _ _ :: tr => pollsOf tr

/-- The faucet-request events of a trace, keeping issue order. -/
def fundRequestsOf : List Event → List (Url × Nat × Addr)
  | [] => []
  | Event.fundRequest u n a :: tr => (u, n, a) :: fundRequestsOf tr
  | Event.poll _ _ :: tr => fundRequestsOf tr

/-! ## Tool dispatcher (`crates/aptos/src/lib.rs`)

The nine sub-tool payload types are external to this slice (their modules
are not part of the specified core); each is an abstract record, and the
environment supplies each variant's execution function, exactly the call
the dispatcher makes on it. -/

structure AccountTool where
  raw : Nat
deriving DecidableEq, Repr

structure ConfigTool where
  raw : Nat
deriving DecidableEq, Repr

structure GenesisTool where
  raw : Nat
deriving DecidableEq, Repr

structure GovernanceTool where
  raw : Nat
deriving DecidableEq, Repr

/-- The `InfoTool` struct from `lib.rs`: it has no fields. -/
structure InfoTool where
deriving DecidableEq, Repr

structure InitTool where
  raw : Nat
deriving DecidableEq, Repr

structure KeyTool where
  raw : Nat
deriving DecidableEq, Repr

structure MoveTool where
  raw : Nat
deriving DecidableEq, Repr

structure NodeTool where
  raw : Nat
deriving DecidableEq, Repr

/-- Serialized CLI result: `CliResult = Result<String, String>`. -/
abbrev CliResult := Except String String

/-- The `Tool` enum from `lib.rs`: the closed set of command variants. -/
inductive Tool where
  | Account (t : AccountTool)
  | Config (t : ConfigTool)
  | Genesis (t : GenesisTool)
  | Governance (t : GovernanceTool)
  | Info (t : InfoTool)
  | Init (t : InitTool)
  | Key (t : KeyTool)
  | Move (t : MoveTool)
  | Node (t : NodeTool)
deriving DecidableEq, Repr

/-- Environment for the dispatcher: one execution function per variant,
the very call `Tool::execute` makes on that variant
(`execute` for the subcommand enums, `execute_serialized` for `Info`,
`execute_serialized_success` for `Init`). -/
structure DispatchEnv where
  account_execute : AccountTool → CliResult
  config_execute : ConfigTool → CliResult
  genesis_execute : GenesisTool → CliResult
  governance_execute : GovernanceTool → CliResult
  info_execute_serialized : InfoTool → CliResult
  init_execute_serialized_success : InitTool → CliResult
  key_execute : KeyTool → CliResult
  move_execute : MoveTool → CliResult
  node_execute : NodeTool → CliResult

/-- The body of `Tool::execute` from `lib.rs`: a single exhaustive match
routing each variant to its own execution call. -/
def Tool.execute (env : DispatchEnv) : Tool → CliResult
  | Tool.Account t => env.account_execute t
  | Tool.Config t => env.config_execute t
  | Tool.Genesis t => env.genesis_execute t
  | Tool.Governance t => env.governance_execute t
  | Tool.Info t => env.info_execute_serialized t
  | Tool.Init t => env.init_execute_serialized_success t
  | Tool.Key t => env.key_execute t
  | Tool.Move t => env.move_execute t
  | Tool.Node t => env.node_execute t

/-! ## Build-info command (`InfoTool::execute` in `lib.rs`)

`InfoTool::execute` returns `Ok(collect_build_information!())`, a
`BTreeMap<String, String>`.  The `BTreeMap` is embedded as an association
list built by key-ordered insertion, mirroring how `BTreeMap` maintains
its ordering invariant; that every built map is strictly key-sorted is
proved below, not assumed. -/

/-- Insertion into a key-sorted association list, with `BTreeMap::insert`
semantics: an existing binding of the same key is replaced. -/
def insertPair (k v : String) : List (String × String) → List (String × String)
  | [] => [(k, v)]
  | (k', v') :: rest =>
    if k < k' then (k, v) :: (k', v') :: rest
    else if k = k' then (k, v) :: rest
    else (k', v') :: insertPair k v rest

/-- Association lists strictly increasing in their keys. -/
def KeySorted (l : List (String × String)) : Prop :=
  List.Chain' (fun p q => p.1 < q.1) l

/-- A `BTreeMap<String, String>` value: its entry list in key order. -/
abbrev BTreeMap := List (String × String)

/-- A `BTreeMap` collected from a sequence of key/value pairs by repeated
insertion. -/
def BTreeMap.ofList (l : List (String × String)) : BTreeMap :=
  l.foldl (fun m p => insertPair p.1 p.2 m) []

/-- Modelled from the spec: the build-info collector contract
(`collect_build_information!` from `aptos_telemetry` is not in the
sources; the spec gives it as a pure, constant, no-failure collector of a
string-to-string mapping).  The process-embedded constants it reads are
the environment; collecting them builds the key-ordered map. -/
structure InfoEnv where
  build_info_entries : List (String × String)

/-- Modelled from the spec: the `collect_build_information!()` call as a
pure function of the embedded constants. -/
def collect_build_information (env : InfoEnv) : BTreeMap :=
  BTreeMap.ofList env.build_info_entries

/-- The body of `InfoTool::execute` from `lib.rs`:
`Ok(collect_build_information!())`. -/
def InfoTool.execute (env : InfoEnv) (_cmd : InfoTool) : Except CliError BTreeMap :=
  Except.ok (collect_build_information env)

/-! ## Concrete environments used by the witness instances -/

/-- A concrete command: fund address `0xABC` with 100 coins on the
`default` profile. -/
def cmdW : FundAccount :=
  { profile_options := "default"
    account := "0xABC"
    faucet_options := ⟨0⟩
    num_coins := 100
    rest_options := ⟨0⟩ }

/-- Faucet returns no pending IDs; every other call succeeds. -/
def envOkEmpty : FundEnv :=
  { faucet_url := fun _ _ => Except.ok "http://faucet"
    fund_account := fun _ _ _ => Except.ok []
    now_secs := Except.ok 100
    client := fun _ _ => Except.ok 0
    wait_for_transaction_by_hash := fun _ _ _ => Except.ok () }

/-- Faucet returns one pending ID; every call succeeds. -/
def envOkOne : FundEnv :=
  { faucet_url := fun _ _ => Except.ok "http://faucet"
    fund_account := fun _ _ _ => Except.ok [3]
    now_secs := Except.ok 100
    client := fun _ _ => Except.ok 0
    wait_for_transaction_by_hash := fun _ _ _ => Except.ok () }

/-- Faucet returns three pending IDs; every call succeeds. -/
def envOkThree : FundEnv :=
  { faucet_url := fun _ _ => Except.ok "http://faucet"
    fund_account := fun _ _ _ => Except.ok [4, 5, 6]
    now_secs := Except.ok 100
    client := fun _ _ => Except.ok 0
    wait_for_transaction_by_hash := fun _ _ _ => Except.ok () }

/-- Faucet returns three pending IDs; the poll for hash 1 confirms, every
other poll times out. -/
def envTimeoutSecond : FundEnv :=
  { faucet_url := fun _ _ => Except.ok "http://faucet"
    fund_account := fun _ _ _ => Except.ok [1, 2, 3]
    now_secs := Except.ok 100
    client := fun _ _ => Except.ok 0
    wait_for_transaction_by_hash := fun _ h _ =>
      if h = 1 then Except.ok () else Except.error CliError.TimeoutError }

/-- The wall-clock read fails after a successful faucet request. -/
def envClockFail : FundEnv :=
  { faucet_url := fun _ _ => Except.ok "http://faucet"
    fund_account := fun _ _ _ => Except.ok [7]
    now_secs := Except.error "clock went backwards"
    client := fun _ _ => Except.ok 0
    wait_for_transaction_by_hash := fun _ _ _ => Except.ok () }

/-- REST-client resolution fails after a successful faucet request. -/
def envClientFail : FundEnv :=
  { faucet_url := fun _ _ => Except.ok "http://faucet"
    fund_account := fun _ _ _ => Except.ok [7]
    now_secs := Except.ok 100
    client := fun _ _ => Except.error (CliError.TransportError "no rest endpoint")
    wait_for_transaction_by_hash := fun _ _ _ => Except.ok () }

/-- A dispatcher environment whose account branch fails and whose other
branches succeed with distinct payloads. -/
def envDispatchW : DispatchEnv :=
  { account_execute := fun _ => Except.error "account failed"
    config_execute := fun _ => Except.ok "config ok"
    genesis_execute := fun _ => Except.ok "genesis ok"
    governance_execute := fun _ => Except.ok "governance ok"
    info_execute_serialized := fun _ => Except.ok "info ok"
    init_execute_serialized_success := fun _ => Except.ok "init ok"
    key_execute := fun _ => Except.ok "key ok"
    move_execute := fun _ => Except.ok "move ok"
    node_execute := fun _ => Except.ok "node ok" }

/-! ## Poll-loop and trace lemmas -/

/-- A poll loop in which every hash confirms issues one poll per hash, in
the input order, and succeeds. -/
theorem pollLoop_all_ok (env : FundEnv) (c : Client) (d : Nat) :
    ∀ hs : List Hash,
      (∀ h ∈ hs, env.wait_for_transaction_by_hash c h d = Except.ok ()) →
      pollLoop env c d hs = (Except.ok (), hs.map fun h => Event.poll h d) := by
  intro hs
  induction hs with
  | nil =>
    intro _
    rfl
  | cons h tl ih =>
    intro hall
    have hh := hall h (List.mem_cons_self h tl)
    have htl := ih fun x hx => hall x (List.mem_cons_of_mem h hx)
    simp [pollLoop, hh, htl]

/-- The trace of a poll loop is the polls of some prefix of the input, all
at the shared deadline, and a later poll is issued only when every earlier
one succeeded. -/
theorem pollLoop_trace (env : FundEnv) (c : Client) (d : Nat) :
    ∀ hs : List Hash, ∃ k, k ≤ hs.length ∧
      (pollLoop env c d hs).2 = (hs.take k).map (fun h => Event.poll h d) ∧
      ∀ i, i + 1 < k → env.wait_for_transaction_by_hash c (hs.getD i 0) d = Except.ok () := by
  intro hs
  induction hs with
  | nil =>
    exact ⟨0, Nat.le_refl 0, rfl, fun i hi => absurd hi (by omega)⟩
  | cons h tl ih =>
    cases hw : env.wait_for_transaction_by_hash c h d with
    | error e =>
      refine ⟨1, by simp, ?_, fun i hi => absurd hi (by omega)⟩
      simp [pollLoop, hw]
    | ok u =>
      cases u
      obtain ⟨k, hk, htr, hok⟩ := ih
      refine ⟨k + 1, by simpa using Nat.succ_le_succ hk, ?_, ?_⟩
      · simp [pollLoop, hw, htr]
      · intro i hi
        cases i with
        | zero => simpa using hw
        | succ j =>
          have := hok j (by omega)
          simpa using this

/-- A poll loop whose input is a confirmed prefix followed by a failing
hash stops at that hash: it returns the failure and polls nothing after
it. -/
theorem pollLoop_stops (env : FundEnv) (c : Client) (d : Nat) (x : Hash)
    (e : CliError) (post : List Hash) :
    ∀ pre : List Hash,
      (∀ y ∈ pre, env.wait_for_transaction_by_hash c y d = Except.ok ()) →
      env.wait_for_transaction_by_hash c x d = Except.error e →
      pollLoop env c d (pre ++ x :: post) =
        (Except.error e, (pre ++ [x]).map fun h => Event.poll h d) := by
  intro pre
  induction pre with
  | nil =>
    intro _ hx
    simp [pollLoop, hx]
  | cons y tl ih =>
    intro hpre hx
    have hy := hpre y (List.mem_cons_self y tl)
    have htl := ih (fun z hz => hpre z (List.mem_cons_of_mem y hz)) hx
    simp [pollLoop, hy, htl]

/-- Poll-projection of a pure poll trace. -/
theorem pollsOf_map_poll (d : Nat) (l : List Hash) :
    pollsOf (l.map fun h => Event.poll h d) = l.map fun h => (h, d) := by
  induction l with
  | nil => rfl
  | cons h tl ih => simp [pollsOf, ih]

/-- A pure poll trace contains no faucet request. -/
theorem fundRequestsOf_map_poll (d : Nat) (l : List Hash) :
    fundRequestsOf (l.map fun h => Event.poll h d) = [] := by
  induction l with
  | nil => rfl
  | cons h tl ih => simpa [fundRequestsOf] using ih

/-- When the faucet URL, faucet request, clock and REST client all
resolve, the execution reduces to the poll loop over the returned hashes
at deadline `now + 10`, with the single faucet request first in the
trace. -/
theorem executeT_setup (env : FundEnv) (cmd : FundAccount) (url : Url)
    (hashes : List Hash) (now : Nat) (c : Client)
    (hurl : env.faucet_url cmd.faucet_options cmd.profile_options = Except.ok url)
    (hfund : env.fund_account url cmd.num_coins cmd.account = Except.ok hashes)
    (hnow : env.now_secs = Except.ok now)
    (hclient : env.client cmd.rest_options cmd.profile_options = Except.ok c) :
    FundAccount.executeT env cmd =
      ((match (pollLoop env c (now + 10) hashes).1 with
        | Except.error e => Except.error e
        | Except.ok _ => Except.ok (fundMessage cmd.num_coins cmd.account)),
       Event.fundRequest url cmd.num_coins cmd.account ::
         (pollLoop env c (now + 10) hashes).2) := by
  simp only [FundAccount.executeT, hurl, hfund, hnow, hclient, List.singleton_append]
  cases hr : (pollLoop env c (now + 10) hashes).1 with
  | error e => simp [hr]
  | ok u => simp [hr]

/-! ## Sorted-map lemmas for the build-info command -/

/-- The head of an inserted list is either the new pair or the old head. -/
theorem insertPair_head (k v : String) :
    ∀ (l : List (String × String)) (p : String × String),
      p ∈ (insertPair k v l).head? → p.1 = k ∨ ∃ q ∈ l.head?, p.1 = q.1 := by
  intro l p
  cases l with
  | nil =>
    intro hp
    rw [insertPair, List.head?_cons, Option.mem_def, Option.some.injEq] at hp
    exact Or.inl (by rw [← hp])
  | cons q rest =>
    obtain ⟨k', v'⟩ := q
    intro hp
    rw [insertPair] at hp
    split_ifs at hp with hlt heq
    · rw [List.head?_cons, Option.mem_def, Option.some.injEq] at hp
      exact Or.inl (by rw [← hp])
    · rw [List.head?_cons, Option.mem_def, Option.some.injEq] at hp
      exact Or.inl (by rw [← hp])
    · rw [List.head?_cons, Option.mem_def, Option.some.injEq] at hp
      exact Or.inr ⟨(k', v'), rfl, by rw [← hp]⟩

/-- Key-ordered insertion preserves strict key-sortedness. -/
theorem insertPair_sorted (k v : String) :
    ∀ l : List (String × String), KeySorted l → KeySorted (insertPair k v l) := by
  intro l
  induction l with
  | nil =>
    intro _
    exact List.chain'_singleton _
  | cons q rest ih =>
    obtain ⟨k', v'⟩ := q
    intro hl
    have hrest : KeySorted rest := (List.chain'_cons'.mp hl).2
    have hhead : ∀ p ∈ rest.head?, k' < p.1 := (List.chain'_cons'.mp hl).1
    show KeySorted (insertPair k v ((k', v') :: rest))
    rw [KeySorted, insertPair]
    split_ifs with hlt heq
    · exact List.chain'_cons.mpr ⟨hlt, hl⟩
    · exact List.chain'_cons'.mpr ⟨fun p hp => by rw [heq]; exact hhead p hp, hrest⟩
    · have hgt : k' < k := by
        rcases lt_trichotomy k k' with h | h | h
        · exact absurd h hlt
        · exact absurd h heq
        · exact h
      refine List.chain'_cons'.mpr ⟨fun p hp => ?_, ih hrest⟩
      rcases insertPair_head k v rest p hp with hk | ⟨r, hr, hpr⟩
      · rw [hk]
        exact hgt
      · rw [hpr]
        exact hhead r hr

/-- Folding insertions over any key-sorted accumulator stays key-sorted. -/
theorem foldl_insertPair_sorted :
    ∀ (l acc : List (String × String)), KeySorted acc →
      KeySorted (l.foldl (fun m p => insertPair p.1 p.2 m) acc) := by
  intro l
  induction l with
  | nil =>
    intro acc h
    exact h
  | cons p tl ih =>
    intro acc h
    exact ih _ (insertPair_sorted p.1 p.2 acc h)

/-- A collected map is strictly sorted by key. -/
theorem ofList_sorted (l : List (String × String)) : KeySorted (BTreeMap.ofList l) :=
  foldl_insertPair_sorted l [] List.chain'_nil

/-! ## Claims -/

/-- Claim C1: for every FundAccount command with address `a`, coin amount
`n` and profile `p`, if the faucet request succeeds and every returned
pending-transaction ID is confirmed before the deadline — including the
zero-ID case, which succeeds with no polling — then execute returns
success with exactly the message `Added n coins to account a`. -/
theorem fund_success_message (env : FundEnv) (cmd : FundAccount) (url : Url)
    (hashes : List Hash) (now : Nat) (c : Client)
    (hurl : env.faucet_url cmd.faucet_options cmd.profile_options = Except.ok url)
    (hfund : env.fund_account url cmd.num_coins cmd.account = Except.ok hashes)
    (hnow : env.now_secs = Except.ok now)
    (hclient : env.client cmd.rest_options cmd.profile_options = Except.ok c)
    (hwait : ∀ h ∈ hashes, env.wait_for_transaction_by_hash c h (now + 10) = Except.ok ()) :
    FundAccount.execute env cmd =
      Except.ok ("Added " ++ toString cmd.num_coins ++ " coins to account " ++ cmd.account) := by
  have hpoll := pollLoop_all_ok env c (now + 10) hashes hwait
  simp [FundAccount.execute, FundAccount.executeT, hurl, hfund, hnow, hclient, hpoll,
    fundMessage]

/-- Witness for C1: the zero-ID edge case at concrete inputs succeeds with
the exact message. -/
theorem fund_success_message_witness :
    FundAccount.execute envOkEmpty cmdW = Except.ok "Added 100 coins to account 0xABC" :=
  fund_success_message envOkEmpty cmdW "http://faucet" [] 100 0 rfl rfl rfl rfl
    (fun h hh => absurd hh (List.not_mem_nil h))

/-- Claim C2: whenever the clock reads `now`, every confirmation poll of
the whole execution receives the single deadline `now + 10`; the deadline
is never recomputed or reset per ID. -/
theorem fund_deadline_shared (env : FundEnv) (cmd : FundAccount) (now : Nat)
    (hnow : env.now_secs = Except.ok now) :
    ∀ p ∈ pollsOf (FundAccount.executeT env cmd).2, p.2 = now + 10 := by
  intro p hp
  cases hu : env.faucet_url cmd.faucet_options cmd.profile_options with
  | error e =>
    simp [FundAccount.executeT, hu, pollsOf] at hp
  | ok url =>
    cases hf : env.fund_account url cmd.num_coins cmd.account with
    | error e =>
      simp [FundAccount.executeT, hu, hf, pollsOf] at hp
    | ok hashes =>
      cases hc : env.client cmd.rest_options cmd.profile_options with
      | error e =>
        simp [FundAccount.executeT, hu, hf, hnow, hc, pollsOf] at hp
      | ok c =>
        obtain ⟨k, hk, htr, hok⟩ := pollLoop_trace env c (now + 10) hashes
        have hset := executeT_setup env cmd url hashes now c hu hf hnow hc
        rw [hset] at hp
        simp only [pollsOf, htr, pollsOf_map_poll] at hp
        rcases List.mem_map.mp hp with ⟨h, hh, hph⟩
        rw [← hph]

/-- Witness for C2: with the clock at 100, the poll of hash 3 is issued at
deadline 110. -/
theorem fund_deadline_shared_witness :
    (3, 110) ∈ pollsOf (FundAccount.executeT envOkOne cmdW).2 ∧
      ((3 : Hash), (110 : Nat)).2 = 110 :=
  ⟨by decide, fund_deadline_shared envOkOne cmdW 100 rfl (3, 110) (by decide)⟩

/-- Claim C3: the IDs returned by the faucet are polled strictly in the
returned order, one at a time: the polled IDs are an order-preserving
prefix of the returned sequence, and a later poll is issued only after
every earlier poll completed successfully. -/
theorem fund_polls_in_order (env : FundEnv) (cmd : FundAccount) (url : Url)
    (hashes : List Hash) (now : Nat) (c : Client)
    (hurl : env.faucet_url cmd.faucet_options cmd.profile_options = Except.ok url)
    (hfund : env.fund_account url cmd.num_coins cmd.account = Except.ok hashes)
    (hnow : env.now_secs = Except.ok now)
    (hclient : env.client cmd.rest_options cmd.profile_options = Except.ok c) :
    (pollsOf (FundAccount.executeT env cmd).2).map Prod.fst =
      hashes.take (pollsOf (FundAccount.executeT env cmd).2).length ∧
    ∀ i, i + 1 < (pollsOf (FundAccount.executeT env cmd).2).length →
      env.wait_for_transaction_by_hash c (hashes.getD i 0) (now + 10) = Except.ok () := by
  obtain ⟨k, hk, htr, hok⟩ := pollLoop_trace env c (now + 10) hashes
  have hset := executeT_setup env cmd url hashes now c hurl hfund hnow hclient
  have hpolls : pollsOf (FundAccount.executeT env cmd).2 =
      (hashes.take k).map fun h => (h, now + 10) := by
    rw [hset]
    simp only [pollsOf, htr, pollsOf_map_poll]
  have hlen : (pollsOf (FundAccount.executeT env cmd).2).length = k := by
    rw [hpolls]
    simp [Nat.min_eq_left hk]
  constructor
  · rw [hpolls]
    simp [List.map_map, List.length_take, Nat.min_eq_left hk]
    have hid : (Prod.fst ∘ fun h : Hash => (h, now + 10)) = id := rfl
    rw [hid, List.map_id]
  · intro i hi
    rw [hlen] at hi
    exact hok i hi

/-- Witness for C3: with IDs `[4, 5, 6]` all confirming, the polled IDs
are exactly the returned prefix, and the first poll succeeded before the
second was issued. -/
theorem fund_polls_in_order_witness :
    (pollsOf (FundAccount.executeT envOkThree cmdW).2).map Prod.fst =
      [4, 5, 6].take (pollsOf (FundAccount.executeT envOkThree cmdW).2).length ∧
    envOkThree.wait_for_transaction_by_hash 0 ([4, 5, 6].getD 0 0) 110 = Except.ok () :=
  ⟨(fund_polls_in_order envOkThree cmdW "http://faucet" [4, 5, 6] 100 0 rfl rfl rfl rfl).1,
   (fund_polls_in_order envOkThree cmdW "http://faucet" [4, 5, 6] 100 0 rfl rfl rfl rfl).2
     0 (by decide)⟩

/-- Claim C4: if a confirmation poll fails (timeout or transport), execute
returns that error verbatim, the failing ID is the last one polled (no
later ID is polled; with an empty confirmed prefix the poller was called
exactly once), and no success message is produced even though earlier IDs
confirmed. -/
theorem fund_error_stops (env : FundEnv) (cmd : FundAccount) (url : Url)
    (now : Nat) (c : Client) (pre : List Hash) (x : Hash) (post : List Hash) (e : CliError)
    (hurl : env.faucet_url cmd.faucet_options cmd.profile_options = Except.ok url)
    (hfund : env.fund_account url cmd.num_coins cmd.account = Except.ok (pre ++ x :: post))
    (hnow : env.now_secs = Except.ok now)
    (hclient : env.client cmd.rest_options cmd.profile_options = Except.ok c)
    (hpre : ∀ y ∈ pre, env.wait_for_transaction_by_hash c y (now + 10) = Except.ok ())
    (hx : env.wait_for_transaction_by_hash c x (now + 10) = Except.error e) :
    FundAccount.execute env cmd = Except.error e ∧
    pollsOf (FundAccount.executeT env cmd).2 = (pre ++ [x]).map fun h => (h, now + 10) := by
  have hstop := pollLoop_stops env c (now + 10) x e post pre hpre hx
  have hset := executeT_setup env cmd url (pre ++ x :: post) now c hurl hfund hnow hclient
  constructor
  · show (FundAccount.executeT env cmd).1 = Except.error e
    rw [hset, hstop]
  · rw [hset, hstop]
    simp only [pollsOf, pollsOf_map_poll]

/-- Witness for C4: with IDs `[1, 2, 3]`, hash 1 confirming and hash 2
timing out, execute returns the timeout and hash 3 is never polled. -/
theorem fund_error_stops_witness :
    FundAccount.execute envTimeoutSecond cmdW = Except.error CliError.TimeoutError ∧
    pollsOf (FundAccount.executeT envTimeoutSecond cmdW).2 = [(1, 110), (2, 110)] := by
  have hpre : ∀ y ∈ [(1 : Hash)],
      envTimeoutSecond.wait_for_transaction_by_hash 0 y 110 = Except.ok () := by
    intro y hy
    rw [List.mem_singleton] at hy
    subst hy
    rfl
  have H := fund_error_stops envTimeoutSecond cmdW "http://faucet" 100 0 [1] 2 [3]
    CliError.TimeoutError rfl rfl rfl rfl hpre rfl
  exact ⟨H.1, H.2⟩

/-- Claim C5: the dispatcher's match over the closed set of variants is
exhaustive and total: every variant is routed to its own
execute/serialize call, and no variant is skipped. -/
theorem tool_dispatch_total (env : DispatchEnv) :
    (∀ t, Tool.execute env (Tool.Account t) = env.account_execute t) ∧
    (∀ t, Tool.execute env (Tool.Config t) = env.config_execute t) ∧
    (∀ t, Tool.execute env (Tool.Genesis t) = env.genesis_execute t) ∧
    (∀ t, Tool.execute env (Tool.Governance t) = env.governance_execute t) ∧
    (∀ t, Tool.execute env (Tool.Info t) = env.info_execute_serialized t) ∧
    (∀ t, Tool.execute env (Tool.Init t) = env.init_execute_serialized_success t) ∧
    (∀ t, Tool.execute env (Tool.Key t) = env.key_execute t) ∧
    (∀ t, Tool.execute env (Tool.Move t) = env.move_execute t) ∧
    (∀ t, Tool.execute env (Tool.Node t) = env.node_execute t) :=
  ⟨fun _ => rfl, fun _ => rfl, fun _ => rfl, fun _ => rfl, fun _ => rfl,
   fun _ => rfl, fun _ => rfl, fun _ => rfl, fun _ => rfl⟩

/-- Claim C6: the dispatcher forwards each variant's result unchanged: for
every variant, whatever result (success or classified error) the
variant's execution produces is exactly the dispatcher's result, with no
translation, inspection or retry. -/
theorem tool_result_forwarded (env : DispatchEnv) :
    (∀ t r, env.account_execute t = r → Tool.execute env (Tool.Account t) = r) ∧
    (∀ t r, env.config_execute t = r → Tool.execute env (Tool.Config t) = r) ∧
    (∀ t r, env.genesis_execute t = r → Tool.execute env (Tool.Genesis t) = r) ∧
    (∀ t r, env.governance_execute t = r → Tool.execute env (Tool.Governance t) = r) ∧
    (∀ t r, env.info_execute_serialized t = r → Tool.execute env (Tool.Info t) = r) ∧
    (∀ t r, env.init_execute_serialized_success t = r →
      Tool.execute env (Tool.Init t) = r) ∧
    (∀ t r, env.key_execute t = r → Tool.execute env (Tool.Key t) = r) ∧
    (∀ t r, env.move_execute t = r → Tool.execute env (Tool.Move t) = r) ∧
    (∀ t r, env.node_execute t = r → Tool.execute env (Tool.Node t) = r) :=
  ⟨fun _ _ h => h, fun _ _ h => h, fun _ _ h => h, fun _ _ h => h, fun _ _ h => h,
   fun _ _ h => h, fun _ _ h => h, fun _ _ h => h, fun _ _ h => h⟩

/-- Witness for C6: a failing account sub-command's error string comes
back verbatim from the dispatcher. -/
theorem tool_result_forwarded_witness :
    Tool.execute envDispatchW (Tool.Account ⟨0⟩) = Except.error "account failed" :=
  (tool_result_forwarded envDispatchW).1 ⟨0⟩ (Except.error "account failed") rfl

/-- Claim C7: every execution of the build-info command returns a
key/value mapping strictly sorted by key, and any two executions produce
identical output. -/
theorem info_sorted_deterministic (env : InfoEnv) (a b : InfoTool) :
    InfoTool.execute env a = InfoTool.execute env b ∧
    ∃ m, InfoTool.execute env a = Except.ok m ∧ KeySorted m :=
  ⟨rfl, collect_build_information env, rfl, ofList_sorted env.build_info_entries⟩

/-- Claim C8: a clock-read failure while computing the deadline aborts the
command with an `UnexpectedError` wrapping the clock failure's
description; no confirmation poll is issued and no success message is
produced. -/
theorem fund_clock_error (env : FundEnv) (cmd : FundAccount) (url : Url)
    (hashes : List Hash) (msg : String)
    (hurl : env.faucet_url cmd.faucet_options cmd.profile_options = Except.ok url)
    (hfund : env.fund_account url cmd.num_coins cmd.account = Except.ok hashes)
    (hnow : env.now_secs = Except.error msg) :
    FundAccount.execute env cmd = Except.error (CliError.UnexpectedError msg) ∧
    pollsOf (FundAccount.executeT env cmd).2 = [] := by
  constructor
  · simp [FundAccount.execute, FundAccount.executeT, hurl, hfund, hnow]
  · simp [FundAccount.executeT, hurl, hfund, hnow, pollsOf]

/-- Witness for C8: a concrete clock failure aborts a funded command with
the wrapped description and an empty poll trace. -/
theorem fund_clock_error_witness :
    FundAccount.execute envClockFail cmdW =
      Except.error (CliError.UnexpectedError "clock went backwards") ∧
    pollsOf (FundAccount.executeT envClockFail cmdW).2 = [] := by
  have H := fund_clock_error envClockFail cmdW "http://faucet" [7] "clock went backwards"
    rfl rfl rfl
  exact ⟨H.1, H.2⟩

/-- Claim C9: execution is not atomic with respect to the faucet side
effect: when the faucet request has succeeded and execute nevertheless
returns an error from a later step, the trace still contains exactly one
faucet request — it is neither undone nor retried, so an error result
does not imply that no funds were requested. -/
theorem fund_request_not_undone (env : FundEnv) (cmd : FundAccount) (url : Url)
    (hashes : List Hash) (e : CliError)
    (hurl : env.faucet_url cmd.faucet_options cmd.profile_options = Except.ok url)
    (hfund : env.fund_account url cmd.num_coins cmd.account = Except.ok hashes)
    (herr : FundAccount.execute env cmd = Except.error e) :
    fundRequestsOf (FundAccount.executeT env cmd).2 =
      [(url, cmd.num_coins, cmd.account)] := by
  cases hnowv : env.now_secs with
  | error msg =>
    simp [FundAccount.executeT, hurl, hfund, hnowv, fundRequestsOf]
  | ok now =>
    cases hc : env.client cmd.rest_options cmd.profile_options with
    | error e2 =>
      simp [FundAccount.executeT, hurl, hfund, hnowv, hc, fundRequestsOf]
    | ok c =>
      obtain ⟨k, hk, htr, hok⟩ := pollLoop_trace env c (now + 10) hashes
      have hset := executeT_setup env cmd url hashes now c hurl hfund hnowv hc
      rw [hset]
      simp only [fundRequestsOf, htr, fundRequestsOf_map_poll]

/-- Witness for C9: REST-client resolution fails after the faucet request,
execute errors, and the trace still holds the one faucet request. -/
theorem fund_request_not_undone_witness :
    fundRequestsOf (FundAccount.executeT envClientFail cmdW).2 =
      [("http://faucet", 100, "0xABC")] :=
  fund_request_not_undone envClientFail cmdW "http://faucet" [7]
    (CliError.TransportError "no rest endpoint") rfl rfl rfl

/-- Claim C10: the build-info command never returns an error: every
invocation returns `Ok` with the collected mapping. -/
theorem info_never_errors (env : InfoEnv) (cmd : InfoTool) :
    ∃ m, InfoTool.execute env cmd = Except.ok m :=
  ⟨collect_build_information env, rfl⟩

end AptosCli
